import Mathlib

/-!
Verification of the input-resolution, weapon and status-effect core of the
gatsby-guardians repository, following its natural-language specification.

Shallow embedding conventions: JavaScript numbers that the embedded code only
copies and compares (axis values, speeds) are modelled as rationals, frame
counters as integers, JavaScript object identity as a numeric id, and `Set` /
`Map` values as duplicate-free lists.  Hook invocations (onApply / onUpdate /
onRemove / onFire) are recorded in explicit event traces.
-/

namespace GatsbyGuardians

/-- Embedding of `INPUT_DEADZONE` from src/systems/InputState.ts (0.2). -/
def INPUT_DEADZONE : ℚ := 1/5

/-- Embedding of `digitalizeAxis` from src/systems/InputState.ts:
if Math.abs(value) < deadzone, return 0; else return value < 0 ? -1 : 1. -/
def digitalizeAxis (value : ℚ) (deadzone : ℚ) : Int :=
  if |value| < deadzone then 0 else if value < 0 then -1 else 1

/-- The mathematical sign function that the specification compares
`digitalizeAxis` against (spec only; not a function of the source). -/
def mathSign (v : ℚ) : Int :=
  if v < 0 then -1 else if v = 0 then 0 else 1

/-! ## Weapon subsystem (WeaponBase, src/unnamed/part_004) -/

/-- A direction argument to `fire`, the plain record with x and y fields. -/
structure Direction where
  x : ℚ
  y : ℚ
  deriving DecidableEq, Repr

/-- Embedding of `WeaponConfig` (part_004).  Only the numeric fields the
claims depend on are kept; type tag, display name and the optional
range / projectileSpeed fields are omitted. -/
structure WeaponConfig where
  fireRate : Int
  damage : Int
  saturationPerHit : Int
  deriving DecidableEq, Repr

/-- Mutable runtime state of a `WeaponBase` instance: `cooldownFrames`, the
owner reference (modelled as the Bool: is an owner attached), and a trace of
every invocation of the weapon-specific abstract `onFire` hook together with
the direction it received. -/
structure WeaponState where
  cooldownFrames : Int
  hasOwner : Bool
  firedEvents : List Direction
  deriving DecidableEq, Repr

/-- Weapon construction: cooldownFrames starts at 0 and no owner is set. -/
def WeaponState.init : WeaponState :=
  { cooldownFrames := 0, hasOwner := false, firedEvents := [] }

/-- Embedding of `WeaponBase.update`: if cooldownFrames > 0, decrement. -/
def weaponUpdate (w : WeaponState) : WeaponState :=
  if w.cooldownFrames > 0 then
    { w with cooldownFrames := w.cooldownFrames - 1 }
  else w

/-- Embedding of `WeaponBase.fire`: if cooldownFrames > 0 or no owner,
return false with no state change; otherwise invoke `onFire(direction)`,
set cooldownFrames to the configured fireRate, and return true. -/
def weaponFire (cfg : WeaponConfig) (w : WeaponState) (dir : Direction) :
    Bool × WeaponState :=
  if w.cooldownFrames > 0 ∨ w.hasOwner = false then (false, w)
  else
    (true, { w with firedEvents := w.firedEvents ++ [dir],
                    cooldownFrames := cfg.fireRate })

/-- An operation performed on a weapon instance during play. -/
inductive WeaponOp where
  | tick : WeaponOp
  | shoot : Direction → WeaponOp
  deriving DecidableEq, Repr

/-- Run a sequence of update / fire calls against a weapon instance. -/
def weaponRun (cfg : WeaponConfig) (w : WeaponState) : List WeaponOp → WeaponState
  | [] => w
  | WeaponOp.tick :: ops => weaponRun cfg (weaponUpdate w) ops
  | WeaponOp.shoot d :: ops => weaponRun cfg (weaponFire cfg w d).2 ops

/-- The `ChipShotgun` config (src/unnamed/part_005): fireRate 30, damage 5,
saturationPerHit 3. -/
def chipShotgunConfig : WeaponConfig :=
  { fireRate := 30, damage := 5, saturationPerHit := 3 }

end GatsbyGuardians

namespace GatsbyGuardians

/-! ## Input mapper (InputMapper, src/systems/SceneSwitcher.ts) -/

/-- Embedding of the `GameAction` enum (SceneSwitcher.ts line 351). -/
inductive GameAction where
  | moveLeft | moveRight | moveUp | moveDown
  | jump | attack | primaryFire | secondaryFire
  | weaponNext | weaponPrev | pause
  deriving DecidableEq, Repr

/-- The DOM `event.code` values the keyboard reader tests for,
modelled as an enumeration instead of raw strings. -/
inductive KeyCode where
  | arrowLeft | arrowRight | arrowUp | arrowDown
  | keyA | keyD | keyW | keyS | space
  | keyZ | keyJ | keyX | keyK | keyQ | keyE | escape
  deriving DecidableEq, Repr

/-- One gamepad button: only its `pressed` flag is read. -/
structure GamepadButton where
  pressed : Bool
  deriving DecidableEq, Repr

/-- The navigator gamepad snapshot the reader consumes: `axes` and
`buttons` arrays (missing indices read as unpressed / axis 0, matching the
optional-chaining `?.pressed` in the source). -/
structure Gamepad where
  axes : List ℚ
  buttons : List GamepadButton
  deriving DecidableEq, Repr

/-- The per-frame device state the four reader methods consult:
the event-maintained `keysPressed` set, the optional gamepad, the optional
virtual-joystick force pair, and the two mobile button flags. -/
structure DeviceFrame where
  keysPressed : List KeyCode
  gamepad : Option Gamepad
  joystickForce : Option (ℚ × ℚ)
  mobileJumpPressed : Bool
  mobileFirePressed : Bool
  deriving DecidableEq, Repr

/-- `InputMapper` state relevant to the queries: the `currentActions` and
`previousActions` sets, as duplicate-free lists. -/
structure MapperState where
  currentActions : List GameAction
  previousActions : List GameAction
  deriving DecidableEq, Repr

/-- JavaScript `Set.add`: membership-preserving insert. -/
def setAdd (s : List GameAction) (a : GameAction) : List GameAction :=
  if a ∈ s then s else s ++ [a]

/-- Membership in the `keysPressed` set. -/
def keyDown (d : DeviceFrame) (k : KeyCode) : Bool :=
  d.keysPressed.contains k

/-- Embedding of `updateKeyboardInput` (SceneSwitcher.ts lines 571-622). -/
def updateKeyboardInput (d : DeviceFrame) (cur : List GameAction) :
    List GameAction :=
  let leftDown := keyDown d KeyCode.arrowLeft || keyDown d KeyCode.keyA
  let rightDown := keyDown d KeyCode.arrowRight || keyDown d KeyCode.keyD
  let upDown := keyDown d KeyCode.arrowUp || keyDown d KeyCode.keyW
  let downDown := keyDown d KeyCode.arrowDown || keyDown d KeyCode.keyS
  let cur := if leftDown then setAdd cur GameAction.moveLeft else cur
  let cur := if rightDown then setAdd cur GameAction.moveRight else cur
  let cur := if upDown then setAdd cur GameAction.moveUp else cur
  let cur := if downDown then setAdd cur GameAction.moveDown else cur
  let cur := if keyDown d KeyCode.space || upDown then
    setAdd cur GameAction.jump else cur
  let cur := if keyDown d KeyCode.keyZ || keyDown d KeyCode.keyJ then
    setAdd cur GameAction.primaryFire else cur
  let cur := if keyDown d KeyCode.keyX || keyDown d KeyCode.keyK then
    setAdd cur GameAction.secondaryFire else cur
  let cur := if keyDown d KeyCode.keyQ then
    setAdd cur GameAction.weaponPrev else cur
  let cur := if keyDown d KeyCode.keyE then
    setAdd cur GameAction.weaponNext else cur
  let cur := if keyDown d KeyCode.escape then
    setAdd cur GameAction.pause else cur
  if keyDown d KeyCode.keyZ || keyDown d KeyCode.keyX then
    setAdd cur GameAction.attack else cur

/-- The `gamepad.buttons[i]?.pressed` access. -/
def gamepadButton (g : Gamepad) (i : Nat) : Bool :=
  match g.buttons.get? i with
  | some b => b.pressed
  | none => false

/-- `gamepad.axes[i]` (the Gamepad API always populates both axes; a
missing index is modelled as 0). -/
def gamepadAxis (g : Gamepad) (i : Nat) : ℚ :=
  (g.axes.get? i).getD 0

/-- Embedding of `updateGamepadInput` (SceneSwitcher.ts lines 624-685):
no-op without a gamepad; otherwise digitalizes the left stick and merges
buttons, adding into the current action set. -/
def updateGamepadInput (d : DeviceFrame) (cur : List GameAction) :
    List GameAction :=
  match d.gamepad with
  | none => cur
  | some g =>
    let digitalX := digitalizeAxis (gamepadAxis g 0) INPUT_DEADZONE
    let digitalY := digitalizeAxis (gamepadAxis g 1) INPUT_DEADZONE
    let cur := if digitalX < 0 || gamepadButton g 14 then
      setAdd cur GameAction.moveLeft else cur
    let cur := if digitalX > 0 || gamepadButton g 15 then
      setAdd cur GameAction.moveRight else cur
    let cur := if digitalY < 0 || gamepadButton g 12 then
      setAdd cur GameAction.moveUp else cur
    let cur := if digitalY > 0 || gamepadButton g 13 then
      setAdd cur GameAction.moveDown else cur
    let cur := if gamepadButton g 0 then setAdd cur GameAction.jump else cur
    let cur := if gamepadButton g 2 then
      setAdd cur GameAction.primaryFire else cur
    let cur := if gamepadButton g 1 then
      setAdd cur GameAction.secondaryFire else cur
    let cur := if gamepadButton g 4 then
      setAdd cur GameAction.weaponPrev else cur
    let cur := if gamepadButton g 5 then
      setAdd cur GameAction.weaponNext else cur
    let cur := if gamepadButton g 9 then setAdd cur GameAction.pause else cur
    if gamepadButton g 2 then setAdd cur GameAction.attack else cur

/-- Embedding of `updateVirtualJoystickInput` (SceneSwitcher.ts lines
687-710): no-op without a joystick; otherwise digitalizes forceX/forceY. -/
def updateVirtualJoystickInput (d : DeviceFrame) (cur : List GameAction) :
    List GameAction :=
  match d.joystickForce with
  | none => cur
  | some f =>
    let digitalX := digitalizeAxis f.1 INPUT_DEADZONE
    let digitalY := digitalizeAxis f.2 INPUT_DEADZONE
    let cur := if digitalX < 0 then setAdd cur GameAction.moveLeft else cur
    let cur := if digitalX > 0 then setAdd cur GameAction.moveRight else cur
    let cur := if digitalY < 0 then setAdd cur GameAction.moveUp else cur
    if digitalY > 0 then setAdd cur GameAction.moveDown else cur

/-- Embedding of `updateMobileInput` (SceneSwitcher.ts lines 562-569). -/
def updateMobileInput (d : DeviceFrame) (cur : List GameAction) :
    List GameAction :=
  let cur := if d.mobileJumpPressed then setAdd cur GameAction.jump else cur
  if d.mobileFirePressed then setAdd cur GameAction.primaryFire else cur

/-- Embedding of `InputMapper.update` (SceneSwitcher.ts lines 546-560):
snapshot current into previous, clear current, then let the keyboard,
gamepad, virtual-joystick and mobile readers contribute, in that order. -/
def mapperUpdate (st : MapperState) (d : DeviceFrame) : MapperState :=
  { previousActions := st.currentActions,
    currentActions :=
      updateMobileInput d
        (updateVirtualJoystickInput d
          (updateGamepadInput d
            (updateKeyboardInput d []))) }

/-- Embedding of `InputMapper.isActionActive` (line 712): membership in
the current set. -/
def isActionActive (st : MapperState) (a : GameAction) : Bool :=
  st.currentActions.contains a

/-- Embedding of `InputMapper.isActionJustPressed` (line 719): in the
current set and not in the previous set. -/
def isActionJustPressed (st : MapperState) (a : GameAction) : Bool :=
  st.currentActions.contains a && !(st.previousActions.contains a)

/-- A query against the mapper between two update calls. -/
inductive MapperQuery where
  | active : GameAction → MapperQuery
  | justPressed : GameAction → MapperQuery
  deriving DecidableEq, Repr

/-- The answer a single query computes from a given mapper state. -/
def queryEval (st : MapperState) : MapperQuery → Bool
  | MapperQuery.active a => isActionActive st a
  | MapperQuery.justPressed a => isActionJustPressed st a

/-- Run a sequence of queries as state transactions, each returning its
answer together with the mapper state it leaves behind.  The source
methods only read `currentActions` / `previousActions` and never write,
so each transaction returns the state unchanged. -/
def runQueries : List MapperQuery → MapperState → List Bool × MapperState
  | [], st => ([], st)
  | q :: qs, st =>
    let ans := queryEval st q
    let rest := runQueries qs st
    (ans :: rest.1, rest.2)

/-! ## Status effects (StatusEffect src/unnamed/part_011, SoggyEffect
src/unnamed/part_010, StatusEffectManager src/unnamed/part_007) -/

/-- Embedding of `PLAYER_SPEED` from the game constants (100). -/
def PLAYER_SPEED : ℚ := 100

/-- Embedding of the `StatusEffectType` enum: SOGGY is its only member. -/
inductive StatusEffectType where
  | soggy
  deriving DecidableEq, Repr

/-- The slice of the `Player` entity the status-effect code touches:
`currentSpeed`, read by `getSpeed` and written by `setSpeed`
(src/unnamed/part_003).  The visual tint is not modelled. -/
structure Player where
  currentSpeed : ℚ
  deriving DecidableEq, Repr

/-- Embedding of `StatusEffectConfig` (part_011): type and duration in
frames, -1 meaning permanent. -/
structure StatusEffectConfig where
  effType : StatusEffectType
  duration : Int
  deriving DecidableEq, Repr

/-- `SoggyEffect.SPEED_MULTIPLIER` (1.5). -/
def SPEED_MULTIPLIER : ℚ := 3/2

/-- `SoggyEffect.DAMAGE_MULTIPLIER` (2.0). -/
def DAMAGE_MULTIPLIER : ℚ := 2

/-- Runtime state of a `SoggyEffect` instance, the only concrete
`StatusEffect` subclass in the source.  `id` models JavaScript object
identity so hook events can name the instance; `hasTarget` models whether
the protected `target` reference is non-null; `originalSpeed` is the
private field of `SoggyEffect`, initialised to PLAYER_SPEED. -/
structure EffectState where
  id : Nat
  config : StatusEffectConfig
  remainingFrames : Int
  hasTarget : Bool
  originalSpeed : ℚ
  deriving DecidableEq, Repr

/-- `new SoggyEffect(duration)`: the base constructor copies the duration
into `remainingFrames`; no target is attached yet. -/
def mkSoggyEffect (i : Nat) (duration : Int) : EffectState :=
  { id := i,
    config := { effType := StatusEffectType.soggy, duration := duration },
    remainingFrames := duration,
    hasTarget := false,
    originalSpeed := PLAYER_SPEED }

/-- Embedding of `StatusEffect.update` (part_011 lines 37-43): decrement
`remainingFrames` while positive; `SoggyEffect.onUpdate` itself changes
nothing (the onUpdate hook call is recorded by the manager trace). -/
def effectTick (e : EffectState) : EffectState :=
  if e.remainingFrames > 0 then
    { e with remainingFrames := e.remainingFrames - 1 }
  else e

/-- Embedding of `StatusEffect.hasExpired` (part_011 lines 56-58):
duration is not the -1 sentinel and remainingFrames has reached 0. -/
def hasExpired (e : EffectState) : Bool :=
  e.config.duration != -1 && decide (e.remainingFrames ≤ 0)

/-- Embedding of `StatusEffect.apply` plus `SoggyEffect.onApply`: set the
target reference, record the pre-effect speed into `originalSpeed`, and
multiply the target speed by SPEED_MULTIPLIER.  Returns the mutated
player together with the mutated effect. -/
def effectApply (p : Player) (e : EffectState) : Player × EffectState :=
  let e1 := { e with hasTarget := true }
  let orig := p.currentSpeed
  ({ currentSpeed := orig * SPEED_MULTIPLIER },
   { e1 with originalSpeed := orig })

/-- Embedding of `StatusEffect.remove` plus `SoggyEffect.onRemove`:
if the target reference is set, restore the recorded original speed
(an exact copy, not a division); then null the reference. -/
def effectRemove (p : Player) (e : EffectState) : Player × EffectState :=
  let p1 := if e.hasTarget then { currentSpeed := e.originalSpeed } else p
  (p1, { e with hasTarget := false })

/-- Hook invocations observable on a status effect instance. -/
inductive HookEvent where
  | applied : Nat → HookEvent
  | ticked : Nat → HookEvent
  | removed : Nat → HookEvent
  deriving DecidableEq, Repr

/-- Embedding of `StatusEffectManager` state: the `activeEffects` Map as
an association list in insertion order, the optional target, and the
trace of apply / onUpdate / remove hook calls made so far.  All effect
instances alias the manager's single target player, as in the source
where the manager applies every effect to its own `target`. -/
structure ManagerState where
  activeEffects : List (StatusEffectType × EffectState)
  target : Option Player
  events : List HookEvent
  deriving DecidableEq, Repr

/-- JavaScript `Map.get` on the association list. -/
def alistLookup (t : StatusEffectType) :
    List (StatusEffectType × EffectState) → Option EffectState
  | [] => none
  | kv :: rest => if kv.1 = t then some kv.2 else alistLookup t rest

/-- JavaScript `Map.delete` on the association list (keys are unique in a
Map, so deleting the first occurrence is exact). -/
def alistRemove (t : StatusEffectType) :
    List (StatusEffectType × EffectState) →
    List (StatusEffectType × EffectState)
  | [] => []
  | kv :: rest => if kv.1 = t then rest else kv :: alistRemove t rest

/-- Manager construction: empty effect map, no target, empty trace. -/
def mkManager : ManagerState :=
  { activeEffects := [], target := none, events := [] }

/-- Embedding of `StatusEffectManager.setTarget`. -/
def setTarget (m : ManagerState) (p : Player) : ManagerState :=
  { m with target := some p }

/-- Embedding of `StatusEffectManager.removeEffect` (part_007 lines
262-268): if an effect of the type is stored, run its remove hook (which
writes through the effect's target reference, aliasing the manager's
player) and delete it from the map. -/
def removeEffect (m : ManagerState) (t : StatusEffectType) : ManagerState :=
  match alistLookup t m.activeEffects with
  | none => m
  | some e =>
    let newTarget :=
      match m.target with
      | some p => some (effectRemove p e).1
      | none => none
    { activeEffects := alistRemove t m.activeEffects,
      target := newTarget,
      events := m.events ++ [HookEvent.removed e.id] }

/-- Embedding of `StatusEffectManager.applyEffect` (part_007 lines
244-257): no-op without a target; otherwise remove any stored effect of
the same type first, then run the new effect's apply hook and store it
(a fresh Map key is appended in insertion order). -/
def applyEffect (m : ManagerState) (e : EffectState) : ManagerState :=
  match m.target with
  | none => m
  | some _ =>
    let t := e.config.effType
    let m1 :=
      if (alistLookup t m.activeEffects).isSome then removeEffect m t else m
    match m1.target with
    | none => m1
    | some p =>
      let r := effectApply p e
      { activeEffects := m1.activeEffects ++ [(t, r.2)],
        target := some r.1,
        events := m1.events ++ [HookEvent.applied e.id] }

/-- Embedding of `StatusEffectManager.update` (part_007 lines 273-286):
run every stored effect's update (its onUpdate hook is traced), collect
the types that have expired, and only after the full sweep remove each
collected type via `removeEffect`. -/
def managerUpdate (m : ManagerState) : ManagerState :=
  let updated := m.activeEffects.map (fun kv => (kv.1, effectTick kv.2))
  let tickEvents := m.activeEffects.map (fun kv => HookEvent.ticked kv.2.id)
  let expired := (updated.filter (fun kv => hasExpired kv.2)).map (fun kv => kv.1)
  expired.foldl removeEffect
    { m with activeEffects := updated, events := m.events ++ tickEvents }

/-- Embedding of `StatusEffectManager.hasEffect`. -/
def hasEffect (m : ManagerState) (t : StatusEffectType) : Bool :=
  (alistLookup t m.activeEffects).isSome

/-- Embedding of `StatusEffectManager.getEffect`. -/
def getEffect (m : ManagerState) (t : StatusEffectType) : Option EffectState :=
  alistLookup t m.activeEffects

/-- One public operation on the manager. -/
inductive MgrOp where
  | applyE : EffectState → MgrOp
  | removeE : StatusEffectType → MgrOp
  | tickAll : MgrOp
  deriving DecidableEq, Repr

/-- Dispatch one public manager operation. -/
def mgrStep (m : ManagerState) : MgrOp → ManagerState
  | MgrOp.applyE e => applyEffect m e
  | MgrOp.removeE t => removeEffect m t
  | MgrOp.tickAll => managerUpdate m

/-- Iterate `managerUpdate` n times. -/
def managerIter (n : Nat) (m : ManagerState) : ManagerState :=
  match n with
  | 0 => m
  | n + 1 => managerIter n (managerUpdate m)

/-- The effect-type keys currently stored, in order. -/
def mgrKeys (m : ManagerState) : List StatusEffectType :=
  m.activeEffects.map (fun kv => kv.1)

/-- Scenario harness: a manager with one target of base speed s, to which
a soggy effect of the given duration is applied. -/
def soggyScenario (s : ℚ) (i : Nat) (d : Int) : ManagerState :=
  applyEffect (setTarget mkManager { currentSpeed := s }) (mkSoggyEffect i d)

/-! ## Projectile pool (ObjectPool src/utils/ObjectPool.ts, ChipShotgun
src/unnamed/part_005) -/

/-- A pooled game object: only its active / visible flags matter here. -/
structure PoolObj where
  active : Bool
  visible : Bool
  deriving DecidableEq, Repr

/-- Modelled from the spec: the engine group that backs `ObjectPool`
(the wrapper in src/utils/ObjectPool.ts delegates `get` to an external
engine group created with the given `maxSize`, whose code is not part of
this repository).  Per the spec the pool has fixed capacity: a request is
served from an inactive member, a new member is created while under
capacity, and once exhausted the request yields nothing. -/
structure PoolGroup where
  maxSize : Nat
  members : List PoolObj
  deriving DecidableEq, Repr

/-- Modelled from the spec: the group's acquire step.  Returns the index
of the slot obtained, if any, with the group (possibly grown by one
not-yet-activated member). -/
def groupAcquire (g : PoolGroup) : Option Nat × PoolGroup :=
  match g.members.findIdx? (fun o => !o.active) with
  | some idx => (some idx, g)
  | none =>
    if g.members.length < g.maxSize then
      (some g.members.length,
       { g with members := g.members ++ [{ active := false, visible := false }] })
    else (none, g)

/-- Embedding of `ObjectPool.get` (src/utils/ObjectPool.ts lines 25-32):
take an object from the group; if one is obtained, setActive(true) and
setVisible(true); a null result is passed through unchanged. -/
def poolGet (g : PoolGroup) : Bool × PoolGroup :=
  match groupAcquire g with
  | (some idx, g1) =>
    (true, { g1 with members := g1.members.set idx { active := true, visible := true } })
  | (none, g1) => (false, g1)

/-- Number of active members of the group. -/
def activeCount (g : PoolGroup) : Nat :=
  (g.members.filter (fun o => o.active)).length

/-- n successive projectile launch attempts within one tick, each drawing
from the pool exactly as `ChipShotgun.onFire` does per pellet: acquire,
and on null silently skip the shot (the `if (projectile)` guard).  Returns
how many launches succeeded, with the final pool. -/
def attemptLaunches (n : Nat) (g : PoolGroup) : Nat × PoolGroup :=
  match n with
  | 0 => (0, g)
  | n + 1 =>
    let r := poolGet g
    let rest := attemptLaunches n r.2
    ((if r.1 then 1 else 0) + rest.1, rest.2)

/-- The pool `ChipShotgun` constructs: capacity 30, initially empty. -/
def chipShotgunPool : PoolGroup :=
  { maxSize := 30, members := [] }

end GatsbyGuardians

namespace GatsbyGuardians

/-! ## Theorems -/

/-- Helper: the deadzone test written without the absolute value, so that
concrete instances reduce to plain rational comparisons. -/
theorem digitalizeAxisEval (v d : ℚ) :
    digitalizeAxis v d =
      if -d < v ∧ v < d then 0 else if v < 0 then -1 else 1 := by
  unfold digitalizeAxis
  by_cases h : |v| < d
  · rw [if_pos h, if_pos (abs_lt.mp h)]
  · rw [if_neg h, if_neg (fun hc => h (abs_lt.mpr hc))]

/-- C2 counterexample: at deadzone 0 and value 0 the deadzone test fails,
so the claim requires the result to be sign 0 = 0, but the code returns 1. -/
theorem digitalizeAxis_sign_flaw :
    ¬ |(0 : ℚ)| < (0 : ℚ) ∧ digitalizeAxis 0 0 = 1 ∧ mathSign 0 = 0 := by
  refine ⟨by norm_num, ?_, by norm_num [mathSign]⟩
  rw [digitalizeAxisEval]
  norm_num

/-- C2 (amended): for every deadzone d > 0 and value v, digitalize
returns 0 exactly when the magnitude of v is below d, returns sign v
whenever the magnitude is not below d, and always lands in -1, 0, 1. -/
theorem digitalizeAxis_tristate (v d : ℚ) (hd : 0 < d) :
    ((digitalizeAxis v d = 0) ↔ |v| < d) ∧
    (¬ |v| < d → digitalizeAxis v d = mathSign v) ∧
    (digitalizeAxis v d = -1 ∨ digitalizeAxis v d = 0 ∨
      digitalizeAxis v d = 1) := by
  unfold digitalizeAxis mathSign
  by_cases h : |v| < d
  · rw [if_pos h]
    exact ⟨⟨fun _ => h, fun _ => rfl⟩, fun hc => absurd h hc,
      Or.inr (Or.inl rfl)⟩
  · rw [if_neg h]
    have hv : v ≠ 0 := by
      intro h0
      apply h
      rw [h0, abs_zero]
      exact hd
    by_cases hneg : v < 0
    · rw [if_pos hneg, if_pos hneg]
      exact ⟨⟨fun hc => absurd hc (by decide), fun hlt => absurd hlt h⟩,
        fun _ => rfl, Or.inl rfl⟩
    · rw [if_neg hneg, if_neg hneg, if_neg hv]
      exact ⟨⟨fun hc => absurd hc (by decide), fun hlt => absurd hlt h⟩,
        fun _ => rfl, Or.inr (Or.inr rfl)⟩

/-- C2 witness: the amended theorem applied at value -1/2 and the
configured deadzone 1/5 (spec Scenario B). -/
theorem digitalizeAxis_tristate_witness :
    ((digitalizeAxis (-1/2) INPUT_DEADZONE = 0) ↔
      |(-1/2 : ℚ)| < INPUT_DEADZONE) ∧
    (¬ |(-1/2 : ℚ)| < INPUT_DEADZONE →
      digitalizeAxis (-1/2) INPUT_DEADZONE = mathSign (-1/2)) ∧
    (digitalizeAxis (-1/2) INPUT_DEADZONE = -1 ∨
      digitalizeAxis (-1/2) INPUT_DEADZONE = 0 ∨
      digitalizeAxis (-1/2) INPUT_DEADZONE = 1) :=
  digitalizeAxis_tristate (-1/2) INPUT_DEADZONE (by norm_num [INPUT_DEADZONE])

/-- C3 counterexample: the nonzero value 1/5 sits exactly at the
configured deadzone boundary 1/5, yet the code returns 1, not 0: the
strict less-than makes the threshold exclusive, so a boundary value is
treated as active. -/
theorem digitalizeAxis_boundary_flaw :
    (INPUT_DEADZONE ≠ 0) ∧ |INPUT_DEADZONE| = INPUT_DEADZONE ∧
    digitalizeAxis INPUT_DEADZONE INPUT_DEADZONE = 1 := by
  refine ⟨by norm_num [INPUT_DEADZONE], abs_of_pos (by norm_num [INPUT_DEADZONE]), ?_⟩
  rw [digitalizeAxisEval]
  norm_num [INPUT_DEADZONE]

/-- C3 (amended): a nonzero value whose magnitude equals the deadzone is
treated as active: digitalize returns sign v, never 0. -/
theorem digitalizeAxis_boundary_active (v d : ℚ) (hv : v ≠ 0)
    (hb : |v| = d) : digitalizeAxis v d = mathSign v := by
  have h : ¬ |v| < d := by rw [hb]; exact lt_irrefl d
  unfold digitalizeAxis mathSign
  rw [if_neg h]
  by_cases hneg : v < 0
  · simp only [if_pos hneg]
  · simp only [if_neg hneg, if_neg hv]

/-- C3 witness: the amended theorem applied at value 1/5 and deadzone 1/5. -/
theorem digitalizeAxis_boundary_active_witness :
    digitalizeAxis (1/5) (1/5) = mathSign (1/5) :=
  digitalizeAxis_boundary_active (1/5) (1/5) (by norm_num)
    (abs_of_pos (by norm_num))

/-- C1: fire with positive cooldown or without an owner returns false and
changes nothing; otherwise it invokes the weapon-specific onFire hook with
the given direction, sets the cooldown to the configured fire rate, and
returns true. -/
theorem weaponBase_fire_contract (cfg : WeaponConfig) (w : WeaponState)
    (dir : Direction) :
    (w.cooldownFrames > 0 ∨ w.hasOwner = false →
      weaponFire cfg w dir = (false, w)) ∧
    (¬ w.cooldownFrames > 0 → w.hasOwner = true →
      weaponFire cfg w dir =
        (true, { w with firedEvents := w.firedEvents ++ [dir],
                        cooldownFrames := cfg.fireRate })) := by
  constructor
  · intro h
    unfold weaponFire
    rw [if_pos h]
  · intro h1 h2
    have hno : ¬ (w.cooldownFrames > 0 ∨ w.hasOwner = false) := by
      intro hc
      rcases hc with hc | hc
      · exact h1 hc
      · rw [h2] at hc
        exact Bool.noConfusion hc
    unfold weaponFire
    rw [if_neg hno]

/-- C1 witness: the contract applied to the ChipShotgun config, once in
the ready state (fires, cooldown set to 30) and once while cooling
(rejected, state unchanged). -/
theorem weaponBase_fire_contract_witness :
    weaponFire chipShotgunConfig
        { cooldownFrames := 0, hasOwner := true, firedEvents := [] }
        { x := 1, y := 0 } =
      (true, { cooldownFrames := 30, hasOwner := true,
               firedEvents := [{ x := 1, y := 0 }] }) ∧
    weaponFire chipShotgunConfig
        { cooldownFrames := 30, hasOwner := true, firedEvents := [] }
        { x := 1, y := 0 } =
      (false, { cooldownFrames := 30, hasOwner := true, firedEvents := [] }) :=
  ⟨(weaponBase_fire_contract chipShotgunConfig
      { cooldownFrames := 0, hasOwner := true, firedEvents := [] }
      { x := 1, y := 0 }).2 (by decide) rfl,
   (weaponBase_fire_contract chipShotgunConfig
      { cooldownFrames := 30, hasOwner := true, firedEvents := [] }
      { x := 1, y := 0 }).1 (Or.inl (by decide))⟩

/-- Helper: with a nonnegative fire rate, the cooldown stays nonnegative
under any sequence of update and fire calls. -/
theorem weaponRun_cooldown_nonneg (cfg : WeaponConfig)
    (hcfg : 0 ≤ cfg.fireRate) :
    ∀ (ops : List WeaponOp) (w : WeaponState), 0 ≤ w.cooldownFrames →
      0 ≤ (weaponRun cfg w ops).cooldownFrames := by
  intro ops
  induction ops with
  | nil => exact fun w hw => hw
  | cons op ops ih =>
    intro w hw
    cases op with
    | tick =>
      apply ih
      unfold weaponUpdate
      by_cases h : w.cooldownFrames > 0
      · rw [if_pos h]
        simp only
        omega
      · rw [if_neg h]
        exact hw
    | shoot d =>
      apply ih
      unfold weaponFire
      by_cases h : w.cooldownFrames > 0 ∨ w.hasOwner = false
      · rw [if_pos h]
        exact hw
      · rw [if_neg h]
        exact hcfg

/-- C7: update decrements the cooldown by exactly 1 while positive and
leaves it at 0 when it is 0, and with a nonnegative configured fire rate
(every weapon config in the source has a positive one) the cooldown is
never negative after any sequence of update and fire calls. -/
theorem weaponBase_cooldown_countdown (cfg : WeaponConfig) (w : WeaponState) :
    (w.cooldownFrames > 0 →
      (weaponUpdate w).cooldownFrames = w.cooldownFrames - 1) ∧
    (w.cooldownFrames = 0 → (weaponUpdate w).cooldownFrames = 0) ∧
    (0 ≤ cfg.fireRate → 0 ≤ w.cooldownFrames →
      ∀ ops : List WeaponOp, 0 ≤ (weaponRun cfg w ops).cooldownFrames) := by
  refine ⟨?_, ?_, ?_⟩
  · intro h
    unfold weaponUpdate
    rw [if_pos h]
  · intro h
    unfold weaponUpdate
    rw [if_neg (by omega)]
    exact h
  · intro h1 h2 ops
    exact weaponRun_cooldown_nonneg cfg h1 ops w h2

/-- C7 witness: the countdown facts applied to the ChipShotgun config at
cooldown 5 and 0, and nonnegativity across a fire followed by an update. -/
theorem weaponBase_cooldown_countdown_witness :
    (weaponUpdate { cooldownFrames := 5, hasOwner := true, firedEvents := [] }).cooldownFrames = 5 - 1 ∧
    (weaponUpdate { cooldownFrames := 0, hasOwner := true, firedEvents := [] }).cooldownFrames = 0 ∧
    0 ≤ (weaponRun chipShotgunConfig
        { cooldownFrames := 0, hasOwner := true, firedEvents := [] }
        [WeaponOp.shoot { x := 1, y := 0 }, WeaponOp.tick]).cooldownFrames :=
  ⟨(weaponBase_cooldown_countdown chipShotgunConfig
      { cooldownFrames := 5, hasOwner := true, firedEvents := [] }).1
      (by decide),
   (weaponBase_cooldown_countdown chipShotgunConfig
      { cooldownFrames := 0, hasOwner := true, firedEvents := [] }).2.1 rfl,
   (weaponBase_cooldown_countdown chipShotgunConfig
      { cooldownFrames := 0, hasOwner := true, firedEvents := [] }).2.2
      (by decide) (by decide)
      [WeaponOp.shoot { x := 1, y := 0 }, WeaponOp.tick]⟩

/-- C6: after an update, isActionJustPressed holds exactly when the
action is in the new current set and was not in the set of the previous
frame (which update snapshotted into previousActions); in particular it
is false when the action is held across both frames or active in
neither. -/
theorem inputMapper_justPressed_edge (st : MapperState) (d : DeviceFrame)
    (a : GameAction) :
    isActionJustPressed (mapperUpdate st d) a = true ↔
      (isActionActive (mapperUpdate st d) a = true ∧
        isActionActive st a = false) := by
  unfold isActionJustPressed isActionActive mapperUpdate
  simp [Bool.and_eq_true, Bool.not_eq_true']

/-- C10: the two queries are pure reads: any sequence of isActionActive /
isActionJustPressed transactions run between two updates leaves the
mapper state exactly as it was, and every query in the sequence returns
the value computed against that unchanged state, so a rising edge is
never consumed by querying it repeatedly. -/
theorem inputMapper_queries_pure (qs : List MapperQuery) (st : MapperState) :
    (runQueries qs st).2 = st ∧
    (runQueries qs st).1 = qs.map (fun q => queryEval st q) := by
  induction qs with
  | nil => exact ⟨rfl, rfl⟩
  | cons q qs ih =>
    refine ⟨ih.1, ?_⟩
    show queryEval st q :: (runQueries qs st).1 = _
    rw [ih.2]
    rfl

end GatsbyGuardians
namespace GatsbyGuardians

/-- Helper: a key that alistLookup cannot find is not among the keys. -/
theorem alistLookup_none_not_mem (t : StatusEffectType)
    (l : List (StatusEffectType × EffectState))
    (h : alistLookup t l = none) : t ∉ l.map (fun kv => kv.1) := by
  induction l with
  | nil => simp
  | cons kv rest ih =>
    unfold alistLookup at h
    by_cases hk : kv.1 = t
    · rw [if_pos hk] at h
      exact absurd h (by simp)
    · rw [if_neg hk] at h
      intro hc
      rcases List.mem_cons.mp hc with h1 | h1
      · exact hk h1.symm
      · exact ih h h1

/-- Helper: removing a key yields a sublist of the original key list. -/
theorem alistRemove_keys_sublist (t : StatusEffectType)
    (l : List (StatusEffectType × EffectState)) :
    ((alistRemove t l).map (fun kv => kv.1)).Sublist
      (l.map (fun kv => kv.1)) := by
  induction l with
  | nil => simp [alistRemove]
  | cons kv rest ih =>
    unfold alistRemove
    by_cases hk : kv.1 = t
    · rw [if_pos hk]
      exact (List.Sublist.refl _).cons _
    · rw [if_neg hk]
      simpa using ih.cons₂ kv.1

/-- Helper: with duplicate-free keys, the removed key is gone. -/
theorem alistRemove_not_mem (t : StatusEffectType)
    (l : List (StatusEffectType × EffectState))
    (h : (l.map (fun kv => kv.1)).Nodup) :
    t ∉ (alistRemove t l).map (fun kv => kv.1) := by
  induction l with
  | nil => simp [alistRemove]
  | cons kv rest ih =>
    unfold alistRemove
    simp only [List.map_cons, List.nodup_cons] at h
    by_cases hk : kv.1 = t
    · rw [if_pos hk]
      rw [hk] at h
      exact h.1
    · rw [if_neg hk]
      intro hc
      rcases List.mem_cons.mp hc with h1 | h1
      · exact hk h1.symm
      · exact ih h.2 h1

/-- Helper: appending a fresh key keeps the key list duplicate-free. -/
theorem keysNodupAppend (l : List (StatusEffectType × EffectState))
    (t : StatusEffectType) (e : EffectState)
    (h1 : (l.map (fun kv => kv.1)).Nodup)
    (h2 : t ∉ l.map (fun kv => kv.1)) :
    (((l ++ [(t, e)]).map (fun kv => kv.1))).Nodup := by
  rw [List.map_append]
  simp [List.nodup_append, h1, h2]

/-- Helper: removeEffect keeps the key list duplicate-free. -/
theorem removeEffect_keysNodup (m : ManagerState) (t : StatusEffectType)
    (h : (mgrKeys m).Nodup) : (mgrKeys (removeEffect m t)).Nodup := by
  unfold removeEffect
  cases hl : alistLookup t m.activeEffects with
  | none => exact h
  | some e =>
    simp only [mgrKeys]
    exact (alistRemove_keys_sublist t m.activeEffects).nodup h

/-- Helper: applyEffect appends the new instance after the removal of the
old one, whenever a target is attached. -/
theorem applyEffect_effects (m : ManagerState) (e : EffectState) (p : Player)
    (hm : m.target = some p) :
    ∃ q : EffectState, (applyEffect m e).activeEffects =
      (if (alistLookup e.config.effType m.activeEffects).isSome then
        alistRemove e.config.effType m.activeEffects
      else m.activeEffects) ++ [(e.config.effType, q)] := by
  by_cases hs : (alistLookup e.config.effType m.activeEffects).isSome
  · obtain ⟨old, hold⟩ := Option.isSome_iff_exists.mp hs
    refine ⟨(effectApply (effectRemove p old).1 e).2, ?_⟩
    rw [if_pos hs]
    simp [applyEffect, removeEffect, hm, hold, hs]
  · refine ⟨(effectApply p e).2, ?_⟩
    rw [if_neg hs]
    simp [applyEffect, hm, Option.not_isSome_iff_eq_none.mp hs]

/-- Helper: the hook-event trace of a replacing applyEffect: exactly one
removed event for the old instance, then one applied event for the new. -/
theorem applyEffect_replace_events (m : ManagerState) (e old : EffectState)
    (p : Player) (hm : m.target = some p)
    (hl : alistLookup e.config.effType m.activeEffects = some old) :
    (applyEffect m e).events =
      m.events ++ [HookEvent.removed old.id, HookEvent.applied e.id] := by
  have hs : (alistLookup e.config.effType m.activeEffects).isSome := by
    rw [hl]; rfl
  simp [applyEffect, removeEffect, hm, hl, hs]

/-- Helper: applyEffect keeps the key list duplicate-free. -/
theorem applyEffect_keysNodup (m : ManagerState) (e : EffectState)
    (h : (mgrKeys m).Nodup) : (mgrKeys (applyEffect m e)).Nodup := by
  cases hm : m.target with
  | none =>
    simp only [applyEffect, hm]
    exact h
  | some p =>
    obtain ⟨q, hq⟩ := applyEffect_effects m e p hm
    unfold mgrKeys
    rw [hq]
    by_cases hs : (alistLookup e.config.effType m.activeEffects).isSome
    · rw [if_pos hs] at hq ⊢
      exact keysNodupAppend _ _ _
        ((alistRemove_keys_sublist _ _).nodup h)
        (alistRemove_not_mem _ _ h)
    · rw [if_neg hs] at hq ⊢
      exact keysNodupAppend _ _ _ h
        (alistLookup_none_not_mem _ _ (Option.not_isSome_iff_eq_none.mp hs))

/-- Helper: a removal fold keeps the key list duplicate-free. -/
theorem foldl_removeEffect_keysNodup (ts : List StatusEffectType) :
    ∀ m : ManagerState, (mgrKeys m).Nodup →
      (mgrKeys (ts.foldl removeEffect m)).Nodup := by
  induction ts with
  | nil => exact fun m h => h
  | cons t ts ih => exact fun m h => ih _ (removeEffect_keysNodup m t h)

/-- Helper: the manager update sweep keeps the key list duplicate-free. -/
theorem managerUpdate_keysNodup (m : ManagerState)
    (h : (mgrKeys m).Nodup) : (mgrKeys (managerUpdate m)).Nodup := by
  simp only [managerUpdate]
  apply foldl_removeEffect_keysNodup
  unfold mgrKeys at h ⊢
  simpa using h

end GatsbyGuardians
namespace GatsbyGuardians

/-- Helper: peeling an update off the back of an iteration. -/
theorem managerIter_succ (n : Nat) (m : ManagerState) :
    managerIter (n + 1) m = managerUpdate (managerIter n m) := by
  induction n generalizing m with
  | zero => rfl
  | succ n ih =>
    have h1 : managerIter (n + 1 + 1) m = managerIter (n + 1) (managerUpdate m) := rfl
    rw [h1, ih]
    rfl

/-- Helper: the manager state right after a soggy effect of duration d is
applied to a fresh target of speed s. -/
theorem soggyScenario_eq (s : ℚ) (i : Nat) (d : Int) :
    soggyScenario s i d =
      ⟨[(StatusEffectType.soggy, ⟨i, ⟨StatusEffectType.soggy, d⟩, d, true, s⟩)],
       some ⟨s * SPEED_MULTIPLIER⟩, [HookEvent.applied i]⟩ := rfl

/-- Helper: one manager update on a permanent (duration -1) soggy effect
only appends its onUpdate event. -/
theorem managerUpdate_inf (s : ℚ) (p : Option Player) (i : Nat)
    (evs : List HookEvent) :
    managerUpdate
        ⟨[(StatusEffectType.soggy, ⟨i, ⟨StatusEffectType.soggy, -1⟩, -1, true, s⟩)],
         p, evs⟩ =
      ⟨[(StatusEffectType.soggy, ⟨i, ⟨StatusEffectType.soggy, -1⟩, -1, true, s⟩)],
       p, evs ++ [HookEvent.ticked i]⟩ := rfl

/-- Helper: one manager update on a live timed soggy effect with more
than one frame left decrements it and appends its onUpdate event. -/
theorem managerUpdate_count (s : ℚ) (p : Option Player) (i : Nat)
    (d r : Int) (evs : List HookEvent) (hr : 1 < r) :
    managerUpdate
        ⟨[(StatusEffectType.soggy, ⟨i, ⟨StatusEffectType.soggy, d⟩, r, true, s⟩)],
         p, evs⟩ =
      ⟨[(StatusEffectType.soggy, ⟨i, ⟨StatusEffectType.soggy, d⟩, r - 1, true, s⟩)],
       p, evs ++ [HookEvent.ticked i]⟩ := by
  have htick : effectTick ⟨i, ⟨StatusEffectType.soggy, d⟩, r, true, s⟩ =
      ⟨i, ⟨StatusEffectType.soggy, d⟩, r - 1, true, s⟩ := by
    unfold effectTick
    rw [if_pos (show (⟨i, ⟨StatusEffectType.soggy, d⟩, r, true, s⟩ :
      EffectState).remainingFrames > 0 by show r > 0; omega)]
  have hexp : hasExpired ⟨i, ⟨StatusEffectType.soggy, d⟩, r - 1, true, s⟩ = false := by
    unfold hasExpired
    simp only [Bool.and_eq_false_iff, decide_eq_false_iff_not]
    refine Or.inr ?_
    show ¬ r - 1 ≤ 0
    omega
  simp [managerUpdate, htick, hexp]

/-- Helper: one manager update on a timed soggy effect in its last frame
ticks it to expiry and removes it after the sweep, restoring the
recorded original speed. -/
theorem managerUpdate_expire (s : ℚ) (p : Player) (i : Nat)
    (d r : Int) (evs : List HookEvent) (hd : d ≠ -1) (hr0 : 0 < r)
    (hr1 : r ≤ 1) :
    managerUpdate
        ⟨[(StatusEffectType.soggy, ⟨i, ⟨StatusEffectType.soggy, d⟩, r, true, s⟩)],
         some p, evs⟩ =
      ⟨[], some ⟨s⟩,
       evs ++ [HookEvent.ticked i, HookEvent.removed i]⟩ := by
  have htick : effectTick ⟨i, ⟨StatusEffectType.soggy, d⟩, r, true, s⟩ =
      ⟨i, ⟨StatusEffectType.soggy, d⟩, r - 1, true, s⟩ := by
    unfold effectTick
    rw [if_pos (show (⟨i, ⟨StatusEffectType.soggy, d⟩, r, true, s⟩ :
      EffectState).remainingFrames > 0 by show r > 0; omega)]
  have hexp : hasExpired ⟨i, ⟨StatusEffectType.soggy, d⟩, r - 1, true, s⟩ = true := by
    unfold hasExpired
    simp only [Bool.and_eq_true, bne_iff_ne, ne_eq, decide_eq_true_eq]
    refine ⟨?_, ?_⟩
    · show ¬ d = -1
      exact hd
    · show r - 1 ≤ 0
      omega
  simp [managerUpdate, htick, hexp, removeEffect, alistLookup, alistRemove,
    effectRemove]

end GatsbyGuardians
namespace GatsbyGuardians

/-- Helper: a permanent soggy effect survives any number of manager
updates unchanged, accumulating only onUpdate events. -/
theorem soggyIter_inf (s : ℚ) (i : Nat) :
    ∀ n : Nat, managerIter n (soggyScenario s i (-1)) =
      ⟨[(StatusEffectType.soggy, ⟨i, ⟨StatusEffectType.soggy, -1⟩, -1, true, s⟩)],
       some ⟨s * SPEED_MULTIPLIER⟩,
       HookEvent.applied i :: List.replicate n (HookEvent.ticked i)⟩ := by
  intro n
  induction n with
  | zero => exact soggyScenario_eq s i (-1)
  | succ n ih =>
    rw [managerIter_succ, ih, managerUpdate_inf]
    simp [List.replicate_succ']

/-- Helper: before its duration elapses, a timed soggy effect counts
down one frame per manager update. -/
theorem soggyIter_live (s : ℚ) (i N : Nat) :
    ∀ k : Nat, k < N → managerIter k (soggyScenario s i (N : Int)) =
      ⟨[(StatusEffectType.soggy,
          ⟨i, ⟨StatusEffectType.soggy, (N : Int)⟩, (N : Int) - (k : Int), true, s⟩)],
       some ⟨s * SPEED_MULTIPLIER⟩,
       HookEvent.applied i :: List.replicate k (HookEvent.ticked i)⟩ := by
  intro k
  induction k with
  | zero =>
    intro _
    simpa [managerIter] using soggyScenario_eq s i (N : Int)
  | succ k ih =>
    intro hk
    rw [managerIter_succ, ih (by omega),
      managerUpdate_count s _ i _ _ _ (by omega)]
    rw [show ((N : Int) - (k : Int)) - 1 = (N : Int) - ((k + 1 : Nat) : Int) by
      push_cast
      ring]
    simp [List.replicate_succ']

/-- Helper: at exactly the duration-th manager update, a timed soggy
effect expires: the sweep ticks it, then removes it and restores the
recorded original speed. -/
theorem soggyIter_final (s : ℚ) (i N : Nat) (hN : 0 < N) :
    managerIter N (soggyScenario s i (N : Int)) =
      ⟨[], some ⟨s⟩,
       HookEvent.applied i ::
         (List.replicate N (HookEvent.ticked i) ++ [HookEvent.removed i])⟩ := by
  obtain ⟨M, rfl⟩ : ∃ M, N = M + 1 := ⟨N - 1, by omega⟩
  rw [managerIter_succ, soggyIter_live s i (M + 1) M (by omega),
    managerUpdate_expire s _ i _ _ _ (by omega) (by omega) (by omega)]
  simp [List.replicate_succ', List.append_assoc]

end GatsbyGuardians
namespace GatsbyGuardians

/-- C4: with a target attached, applying an effect whose type is already
stored triggers exactly one removed-hook event for the old instance
followed by exactly one applied-hook event for the new one; and every
manager operation preserves duplicate-freedom of the per-type key list,
so the map never holds two instances of a type. -/
theorem statusEffectManager_replace_contract (m : ManagerState) :
    (∀ e old : EffectState, m.target.isSome = true →
      alistLookup e.config.effType m.activeEffects = some old →
      (applyEffect m e).events =
        m.events ++ [HookEvent.removed old.id, HookEvent.applied e.id]) ∧
    (∀ op : MgrOp, (mgrKeys m).Nodup → (mgrKeys (mgrStep m op)).Nodup) := by
  constructor
  · intro e old hp hl
    obtain ⟨p, hm⟩ := Option.isSome_iff_exists.mp hp
    exact applyEffect_replace_events m e old p hm hl
  · intro op h
    cases op with
    | applyE e => exact applyEffect_keysNodup m e h
    | removeE t => exact removeEffect_keysNodup m t h
    | tickAll => exact managerUpdate_keysNodup m h

/-- C4 witness: replacing the active soggy instance 0 with instance 1
emits removed 0 then applied 1, and the key list stays duplicate-free. -/
theorem statusEffectManager_replace_contract_witness :
    (applyEffect (soggyScenario 1 0 (-1)) (mkSoggyEffect 1 5)).events =
      (soggyScenario 1 0 (-1)).events ++
        [HookEvent.removed 0, HookEvent.applied 1] ∧
    (mgrKeys (mgrStep (soggyScenario 1 0 (-1))
      (MgrOp.applyE (mkSoggyEffect 1 5)))).Nodup :=
  ⟨(statusEffectManager_replace_contract (soggyScenario 1 0 (-1))).1
      (mkSoggyEffect 1 5) ⟨0, ⟨StatusEffectType.soggy, -1⟩, -1, true, 1⟩ rfl rfl,
   (statusEffectManager_replace_contract (soggyScenario 1 0 (-1))).2
      (MgrOp.applyE (mkSoggyEffect 1 5)) (by decide)⟩

/-- C5: a soggy effect constructed with duration -1 and applied to a
target never expires: every manager update leaves it stored untouched and
emits no removed event; a soggy effect constructed with duration N > 0
stays stored with N - k frames left after k < N updates, and at exactly
the N-th update it is ticked, found expired, and removed after the
sweep, its removed-hook firing then and only then. -/
theorem statusEffect_expiry_contract (s : ℚ) (i N : Nat) (hN : 0 < N) :
    (∀ n : Nat, managerIter n (soggyScenario s i (-1)) =
        ⟨[(StatusEffectType.soggy, ⟨i, ⟨StatusEffectType.soggy, -1⟩, -1, true, s⟩)],
         some ⟨s * SPEED_MULTIPLIER⟩,
         HookEvent.applied i :: List.replicate n (HookEvent.ticked i)⟩ ∧
      hasExpired ⟨i, ⟨StatusEffectType.soggy, -1⟩, -1, true, s⟩ = false) ∧
    (∀ k : Nat, k < N →
      managerIter k (soggyScenario s i (N : Int)) =
        ⟨[(StatusEffectType.soggy,
            ⟨i, ⟨StatusEffectType.soggy, (N : Int)⟩, (N : Int) - (k : Int), true, s⟩)],
         some ⟨s * SPEED_MULTIPLIER⟩,
         HookEvent.applied i :: List.replicate k (HookEvent.ticked i)⟩) ∧
    managerIter N (soggyScenario s i (N : Int)) =
      ⟨[], some ⟨s⟩,
       HookEvent.applied i ::
         (List.replicate N (HookEvent.ticked i) ++ [HookEvent.removed i])⟩ :=
  ⟨fun n => ⟨soggyIter_inf s i n, rfl⟩,
   soggyIter_live s i N,
   soggyIter_final s i N hN⟩

/-- C5 witness: the expiry contract at speed 1, instance 0 and duration
2: three updates leave the permanent effect in place, one update leaves
the timed effect with one frame, the second update removes it. -/
theorem statusEffect_expiry_contract_witness :
    (managerIter 3 (soggyScenario 1 0 (-1)) =
        ⟨[(StatusEffectType.soggy, ⟨0, ⟨StatusEffectType.soggy, -1⟩, -1, true, 1⟩)],
         some ⟨1 * SPEED_MULTIPLIER⟩,
         HookEvent.applied 0 :: List.replicate 3 (HookEvent.ticked 0)⟩ ∧
      hasExpired ⟨0, ⟨StatusEffectType.soggy, -1⟩, -1, true, 1⟩ = false) ∧
    managerIter 1 (soggyScenario 1 0 ((2 : Nat) : Int)) =
      ⟨[(StatusEffectType.soggy,
          ⟨0, ⟨StatusEffectType.soggy, ((2 : Nat) : Int)⟩,
           ((2 : Nat) : Int) - ((1 : Nat) : Int), true, 1⟩)],
       some ⟨1 * SPEED_MULTIPLIER⟩,
       HookEvent.applied 0 :: List.replicate 1 (HookEvent.ticked 0)⟩ ∧
    managerIter 2 (soggyScenario 1 0 ((2 : Nat) : Int)) =
      ⟨[], some ⟨1⟩,
       HookEvent.applied 0 ::
         (List.replicate 2 (HookEvent.ticked 0) ++ [HookEvent.removed 0])⟩ :=
  ⟨(statusEffect_expiry_contract 1 0 2 (by decide)).1 3,
   (statusEffect_expiry_contract 1 0 2 (by decide)).2.1 1 (by decide),
   (statusEffect_expiry_contract 1 0 2 (by decide)).2.2⟩

/-- Helper: a lookup skips a prefix in which the key is absent. -/
theorem alistLookup_append_right (t : StatusEffectType)
    (l1 l2 : List (StatusEffectType × EffectState))
    (h : alistLookup t l1 = none) :
    alistLookup t (l1 ++ l2) = alistLookup t l2 := by
  induction l1 with
  | nil => rfl
  | cons kv rest ih =>
    unfold alistLookup at h
    by_cases hk : kv.1 = t
    · rw [if_pos hk] at h
      exact absurd h (by simp)
    · rw [if_neg hk] at h
      show (if kv.1 = t then some kv.2 else alistLookup t (rest ++ l2)) =
        alistLookup t l2
      rw [if_neg hk]
      exact ih h

end GatsbyGuardians
namespace GatsbyGuardians

/-- C8: applying a soggy effect to a target of speed s records s as the
original speed and sets the target speed to s times 1.5; removing the
stored instance explicitly restores exactly the recorded s; and in the
spec scenario (base speed 100, duration 300) the speed is 150 while
soggy and exactly 100 after the effect auto-removes at update 300. -/
theorem soggyEffect_speed_restore (m : ManagerState) (e : EffectState)
    (s : ℚ) (hm : m.target = some ⟨s⟩)
    (ht : e.config.effType = StatusEffectType.soggy)
    (hl : alistLookup StatusEffectType.soggy m.activeEffects = none) :
    ((applyEffect m e).target = some ⟨s * SPEED_MULTIPLIER⟩ ∧
      getEffect (applyEffect m e) StatusEffectType.soggy =
        some ⟨e.id, e.config, e.remainingFrames, true, s⟩ ∧
      (removeEffect (applyEffect m e) StatusEffectType.soggy).target =
        some ⟨s⟩) ∧
    ((soggyScenario 100 0 ((300 : Nat) : Int)).target = some ⟨150⟩ ∧
      (managerIter 300 (soggyScenario 100 0 ((300 : Nat) : Int))).target =
        some ⟨100⟩) := by
  have hs : (alistLookup e.config.effType m.activeEffects).isSome = false := by
    rw [ht, hl]
    rfl
  have happ : applyEffect m e =
      ⟨m.activeEffects ++
        [(StatusEffectType.soggy, ⟨e.id, e.config, e.remainingFrames, true, s⟩)],
       some ⟨s * SPEED_MULTIPLIER⟩,
       m.events ++ [HookEvent.applied e.id]⟩ := by
    simp [applyEffect, hm, ht, hs, effectApply]
  have hlq : alistLookup StatusEffectType.soggy (applyEffect m e).activeEffects =
      some ⟨e.id, e.config, e.remainingFrames, true, s⟩ := by
    rw [happ]
    show alistLookup StatusEffectType.soggy
      (m.activeEffects ++
        [(StatusEffectType.soggy, ⟨e.id, e.config, e.remainingFrames, true, s⟩)]) = _
    rw [alistLookup_append_right _ _ _ hl]
    rfl
  refine ⟨⟨?_, ?_, ?_⟩, ?_, ?_⟩
  · rw [happ]
  · exact hlq
  · unfold removeEffect
    rw [hlq, happ]
    simp [effectRemove]
  · have h0 := soggyScenario_eq 100 0 ((300 : Nat) : Int)
    rw [h0]
    show some ({ currentSpeed := 100 * SPEED_MULTIPLIER } : Player) = some ⟨150⟩
    norm_num [SPEED_MULTIPLIER]
  · exact congrArg ManagerState.target (soggyIter_final 100 0 300 (by norm_num))

/-- C8 witness: the restore contract applied to a fresh manager with
target speed 100 and the default-duration soggy effect instance 0. -/
theorem soggyEffect_speed_restore_witness :
    ((applyEffect (setTarget mkManager ⟨100⟩) (mkSoggyEffect 0 300)).target =
        some ⟨100 * SPEED_MULTIPLIER⟩ ∧
      getEffect (applyEffect (setTarget mkManager ⟨100⟩) (mkSoggyEffect 0 300))
          StatusEffectType.soggy =
        some ⟨0, ⟨StatusEffectType.soggy, 300⟩, 300, true, 100⟩ ∧
      (removeEffect
          (applyEffect (setTarget mkManager ⟨100⟩) (mkSoggyEffect 0 300))
          StatusEffectType.soggy).target = some ⟨100⟩) ∧
    ((soggyScenario 100 0 ((300 : Nat) : Int)).target = some ⟨150⟩ ∧
      (managerIter 300 (soggyScenario 100 0 ((300 : Nat) : Int))).target =
        some ⟨100⟩) :=
  soggyEffect_speed_restore (setTarget mkManager ⟨100⟩) (mkSoggyEffect 0 300)
    100 rfl rfl rfl

/-- C9: with the capacity-30 pool ChipShotgun constructs, 31 launch
attempts in one tick succeed exactly 30 times and leave exactly 30
active projectiles; the 31st acquisition yields nothing (the shot is
dropped with no error, every attempt being a total function) and the
pool never grows beyond its 30 members. -/
theorem projectilePool_exhaustion :
    (attemptLaunches 31 chipShotgunPool).1 = 30 ∧
    activeCount (attemptLaunches 31 chipShotgunPool).2 = 30 ∧
    (poolGet (attemptLaunches 30 chipShotgunPool).2).1 = false ∧
    (poolGet (attemptLaunches 30 chipShotgunPool).2).2 =
      (attemptLaunches 30 chipShotgunPool).2 ∧
    (attemptLaunches 31 chipShotgunPool).2.members.length = 30 := by
  refine ⟨by decide, by decide, by decide, by decide, by decide⟩

end GatsbyGuardians
